import Mathlib

/-!
Verification development for the E-VRP repository (src/graph.py and
src/heuristic.py): a shallow embedding of the path cache, the greedy
constructive heuristic, the neighborhood generators and the
variable-neighborhood metaheuristic, together with theorems settling the
frozen claims about them.

Python numbers are modelled as rationals where only compared and as
integers where the code also adds and subtracts them; Python dictionaries
of edge attributes as key-lookup functions; Python exceptions as explicit
error values.  Classes of the repository that live in modules not shipped
with the sources (solution.Route, solution.Solution, the battery) are
modelled from the specification and marked as such in their doc comments.
-/

namespace EVRP

/-! ## Lexicographic objective (heuristic.py, local_search lines 316-335)

A solution is compared by `(time, energy)`: the Python test is
`neighbor.time < actual.time or (neighbor.time == actual.time and
neighbor.energy < actual.energy)`. -/

/-- Observable aggregate of a `solution.Solution` instance, modelled from the
spec (§4.5): `time` and `energy` are the additive aggregates used as the
search objective, `missingCustomers` is whether `missing_customers()` is
non-empty, `feasible` is `is_feasible()`.  The class itself is in
`solution.py`, which is not among the repository sources. -/
structure SolObs where
  time : ℚ
  energy : ℚ
  missingCustomers : Bool
  feasible : Bool
deriving DecidableEq, Repr

/-- The strict lexicographic comparison of heuristic.py lines 322-324:
`n.time < s.time or (n.time == s.time and n.energy < s.energy)`. -/
def betterLex (n s : SolObs) : Bool :=
  decide (n.time < s.time) || (decide (n.time = s.time) && decide (n.energy < s.energy))

/-- A Python runtime fault that escapes the heuristic code. -/
inductive PyFault where
  | assertionFailed
deriving DecidableEq, Repr

/-- Loop of `local_search` (heuristic.py lines 319-332): scan the candidate
sequence, counting examined candidates, and return the first strictly
improving one after asserting it misses no customer and is feasible;
`copy.deepcopy(neighbor)` on return is a value copy. -/
def localSearchGo (actual : SolObs) : Nat → List SolObs → Except PyFault (Option SolObs × Nat)
  | n, [] => .ok (none, n)
  | n, c :: rest =>
    if betterLex c actual then
      if c.missingCustomers then .error .assertionFailed
      else if !c.feasible then .error .assertionFailed
      else .ok (some c, n + 1)
    else localSearchGo actual (n + 1) rest

/-- `local_search(actual_solution, neighborhood)` of heuristic.py lines
316-335.  A neighborhood generator is modelled as the finite sequence of
candidate values it yields (the candidate is examined immediately at each
yield, so the sequence of yield-time values is the faithful observable). -/
def local_search (actual : SolObs) (neighborhood : SolObs → List SolObs) :
    Except PyFault (Option SolObs × Nat) :=
  localSearchGo actual 0 (neighborhood actual)

/-- Candidates a `local_search` call asks the generator for before it stops:
everything up to and including the first strictly improving one (a ghost
observer used to state which candidates the search examined). -/
def examinedCands (actual : SolObs) : List SolObs → List SolObs
  | [] => []
  | c :: rest => if betterLex c actual then [c] else c :: examinedCands actual rest

/-! ## Metaheuristic driver (heuristic.py lines 278-313)

The wall-clock test `time.time() > t0 + max_time` is modelled as an
arbitrary boolean oracle of the iteration counter; the four neighborhood
generators of the `neighborhoods` dict are passed as a list of candidate
sequences.  Two ghost accumulators record the successive values of
`actual_solution` and every candidate any `local_search` call examined. -/

/-- Inner loop of `metaheuristic` (lines 296-303): one `local_search` pass
over each neighborhood, adopting an improvement immediately.  Returns the
updated `(actual_solution, best_it)` with the ghost trajectory and
examined-candidate logs. -/
def metaInner (vnsIt : Nat) :
    List (SolObs → List SolObs) → Nat → SolObs → List SolObs → List SolObs →
    Except PyFault (SolObs × Nat × List SolObs × List SolObs)
  | [], bestIt, actual, traj, observed => .ok (actual, bestIt, traj, observed)
  | g :: rest, bestIt, actual, traj, observed =>
    match local_search actual g with
    | .error e => .error e
    | .ok (none, _) =>
      metaInner vnsIt rest bestIt actual traj (observed ++ examinedCands actual (g actual))
    | .ok (some s, _) =>
      metaInner vnsIt rest vnsIt s (traj ++ [s]) (observed ++ examinedCands actual (g actual))

/-- Outer loop of `metaheuristic` (lines 290-305): `for vns_it in
range(max_iter)`, breaking when the time oracle fires at the top of an
iteration or when `vns_it >= best_it + 3` after the pass. -/
def metaLoop (tlim : Nat → Bool) (gens : List (SolObs → List SolObs)) :
    List Nat → Nat → SolObs → List SolObs → List SolObs →
    Except PyFault (SolObs × List SolObs × List SolObs)
  | [], _, actual, traj, observed => .ok (actual, traj, observed)
  | vnsIt :: rest, bestIt, actual, traj, observed =>
    if tlim vnsIt then .ok (actual, traj, observed)
    else
      match metaInner vnsIt gens bestIt actual traj observed with
      | .error e => .error e
      | .ok (actual2, bestIt2, traj2, observed2) =>
        if bestIt2 + 3 ≤ vnsIt then .ok (actual2, traj2, observed2)
        else metaLoop tlim gens rest bestIt2 actual2 traj2 observed2

/-- `metaheuristic(initial_solution, max_iter)` of heuristic.py lines
278-313, with the ghost logs: result is `(returned solution, successive
values of actual_solution, every candidate examined)`. -/
def metaheuristic (tlim : Nat → Bool) (gens : List (SolObs → List SolObs))
    (maxIter : Nat) (initial : SolObs) :
    Except PyFault (SolObs × List SolObs × List SolObs) :=
  metaLoop tlim gens (List.range maxIter) 0 initial [initial] []

/-! ## Nodes and the cache as the heuristic consumes them

heuristic.py treats a node of interest as a `(latitude, longitude, type)`
triple (see `self._customer` in `GreedyHeuristic.__init__` and the `dest[2]`
accesses in `find_nearest`), and scans cache records through
`cache.source_iterator(node)`, each record carrying a destination triple and
a greenest `Path` with a `time` (and, for `Route.append`, an energy). The
cache class feeding heuristic.py is not among the repository sources, so
its record shape is modelled from the spec (§3 CacheRecord, §4.1). -/

/-- A point of interest as heuristic.py handles it: latitude, longitude
(modelled as integers, only compared for equality) and node type. -/
structure HNode where
  lat : Int
  lon : Int
  ntype : String
deriving DecidableEq, Repr

/-- Modelled from the spec: one cache record as `source_iterator` hands it
to the heuristic — destination triple plus the greenest Path's aggregate
time and energy (spec §3 CacheRecord; the greenest Path is what
`Route.append` traverses, §4.4).  Times and energies are modelled as
integers: the heuristic only adds, subtracts and compares them. -/
structure CacheRec where
  src : HNode
  dst : HNode
  greenTime : ℤ
  greenEnergy : ℤ
deriving DecidableEq, Repr

/-- Greenest-path lookup used by the modelled `Route.append`: the first
cache record from `s` to `d`, as `(time, energy)`. -/
def cacheGreen (cache : List CacheRec) (s d : HNode) : Option (ℤ × ℤ) :=
  (cache.find? (fun r => r.src == s && r.dst == d)).map (fun r => (r.greenTime, r.greenEnergy))

/-- Modelled from the spec: the numeric configuration the core consumes
(§6): the depot node, battery capacity, battery critical threshold and the
maximum route time. -/
structure Cfg where
  depot : HNode
  capacity : ℤ
  threshold : ℤ
  maxTime : ℤ
deriving Repr

/-- Modelled from the spec: feasibility exceptions of `solution` (§7), plus
`NoPathFound` which propagates when the cache has no record. -/
inductive RouteErr where
  | batteryCritical
  | maximumTime
  | unfeasible
  | noPathFound
deriving DecidableEq, Repr

/-- Modelled from the spec: the observable state of a `solution.Route`
under construction (§4.4, §4.3): the appended nodes (the route starts at
the depot, which is not stored), the battery charge and the running time. -/
structure RouteState where
  nodes : List HNode
  charge : ℤ
  time : ℤ
deriving DecidableEq, Repr

/-- A fresh route: no appended nodes, a full battery, zero time. -/
def emptyRoute (cfg : Cfg) : RouteState := ⟨[], cfg.capacity, 0⟩

/-- `Route.last_node()`: the current tail, or none for an empty route
(spec §4.4). -/
def RouteState.lastNode (r : RouteState) : Option HNode := r.nodes.getLast?

/-- Modelled from the spec: `Route.append(node)` (§4.4) extends the route
along the greenest cached Path from the last node (the depot for a fresh
route), applying the energy to the battery — `BatteryCriticalException` if
the charge would go below the critical threshold, clamped at capacity on
net gain, reset to capacity on a station visit (§4.3, §3 Battery) — and the
time to the running total — `MaximumTimeException` if the cumulative time
would exceed the limit. A `None` destination matches no cache record, so
`NoPathFound` propagates (§7). -/
def routeAppend (cfg : Cfg) (cache : List CacheRec) (r : RouteState)
    (dest : Option HNode) : Except RouteErr RouteState :=
  match dest with
  | none => .error .noPathFound
  | some d =>
    match cacheGreen cache (r.lastNode.getD cfg.depot) d with
    | none => .error .noPathFound
    | some (t, e) =>
      if r.charge - e < cfg.threshold then .error .batteryCritical
      else if cfg.maxTime < r.time + t then .error .maximumTime
      else
        .ok ⟨r.nodes ++ [d],
             if d.ntype = "station" then cfg.capacity else min (r.charge - e) cfg.capacity,
             r.time + t⟩

/-- Replay a node sequence from a fresh route by repeated `Route.append`
(used to re-validate a mutated route, spec §4.4). -/
def routeReplayGo (cfg : Cfg) (cache : List CacheRec) (r : RouteState) :
    List HNode → Except RouteErr RouteState
  | [] => .ok r
  | d :: rest =>
    match routeAppend cfg cache r (some d) with
    | .ok r2 => routeReplayGo cfg cache r2 rest
    | .error e => .error e

/-- Modelled from the spec: `Route.remove(node)` (§4.4) deletes the Path
segments touching the node, re-links the remaining neighbours along cached
greenest Paths and re-validates; any violation fails with
`UnfeasibleRouteException` leaving the route unchanged (atomic). -/
def routeRemove (cfg : Cfg) (cache : List CacheRec) (r : RouteState)
    (n : HNode) : Except RouteErr RouteState :=
  match routeReplayGo cfg cache (emptyRoute cfg) (r.nodes.erase n) with
  | .ok r2 => .ok r2
  | .error _ => .error .unfeasible

/-- Comparison of a candidate green time against the running minimum,
which starts at `math.inf` (modelled as `none`). -/
def ltRunningMin (t : ℤ) : Option ℤ → Bool
  | none => true
  | some m => decide (t < m)

/-- Loop body of `GreedyHeuristic.find_nearest` (heuristic.py lines
129-142): fold over the records from `source_iterator`, keeping the
destination of minimal greenest time; for type `customer` only
destinations still in `self._customer` count. -/
def findNearestGo (customers : List HNode) (typeToFind : String) :
    Option ℤ → Option HNode → List CacheRec → Option HNode
  | _, minNode, [] => minNode
  | minTime, minNode, cr :: rest =>
    if typeToFind = "customer" then
      if decide (cr.dst.ntype = typeToFind) && decide (cr.dst ∈ customers) &&
          ltRunningMin cr.greenTime minTime then
        findNearestGo customers typeToFind (some cr.greenTime) (some cr.dst) rest
      else findNearestGo customers typeToFind minTime minNode rest
    else
      if decide (cr.dst.ntype = typeToFind) && ltRunningMin cr.greenTime minTime then
        findNearestGo customers typeToFind (some cr.greenTime) (some cr.dst) rest
      else findNearestGo customers typeToFind minTime minNode rest

/-- `GreedyHeuristic.find_nearest(current_node, type_to_find)`
(heuristic.py lines 128-142). `source_iterator(current_node)` yields the
cached records whose source equals `current_node`; `current_node` may be
Python `None` (from `last_node()` of an empty route), which equals no
record's source. -/
def find_nearest (cache : List CacheRec) (customers : List HNode)
    (currentNode : Option HNode) (typeToFind : String) : Option HNode :=
  findNearestGo customers typeToFind none none
    (cache.filter (fun cr => decide (some cr.src = currentNode)))

/-! ## The greedy heuristic (heuristic.py lines 40-142)

The recovery helpers are declared as
`def handle_max_time_exceeded(self):` (line 98) and
`def handle_insufficient_energy(self):` (line 112) — one positional
parameter each — yet every call site passes a second positional argument:
`self.handle_insufficient_energy(self._temp_route)` (lines 77 and 126) and
`self.handle_max_time_exceeded(self._temp_route)` (lines 81 and 110).
A Python bound-method call whose positional argument count differs from
the method's parameter count raises `TypeError` before the body runs;
`pyBoundMethodCall` models exactly that dispatch step. -/

-- Equality of `Except` results is decidable (used to evaluate concrete
-- runs of the embedded code).
deriving instance DecidableEq for Except

/-- A Python runtime error escaping `GreedyHeuristic`. -/
inductive PyErr where
  | typeError
  | valueError
  | systemExitBattery
  | systemExitMaxTime
  | routeFault (e : RouteErr)
  | outOfFuel
deriving DecidableEq, Repr

/-- State of `GreedyHeuristic` relevant to route construction: the
unvisited customers (`self._customer`) and the route under construction
(`self._temp_route`, created once in `__init__`). -/
structure GreedyState where
  customers : List HNode
  tempRoute : RouteState
deriving DecidableEq, Repr

/-- Positional parameters of `def handle_insufficient_energy(self):`
(heuristic.py line 112): just `self`. -/
def handleInsufficientEnergyParamCount : Nat := 1

/-- Positional arguments at `self.handle_insufficient_energy(self._temp_route)`
(heuristic.py lines 77 and 126): the bound `self` plus one explicit argument. -/
def handleInsufficientEnergyArgCount : Nat := 2

/-- Positional parameters of `def handle_max_time_exceeded(self):`
(heuristic.py line 98): just `self`. -/
def handleMaxTimeExceededParamCount : Nat := 1

/-- Positional arguments at `self.handle_max_time_exceeded(self._temp_route)`
(heuristic.py lines 81 and 110): the bound `self` plus one explicit argument. -/
def handleMaxTimeExceededArgCount : Nat := 2

/-- A Python bound-method call: the body runs only when the positional
argument count matches the method's parameter count; otherwise the call
raises `TypeError`. -/
def pyBoundMethodCall (paramCount argCount : Nat)
    (body : Except PyErr GreedyState) : Except PyErr GreedyState :=
  if argCount = paramCount then body else .error .typeError

/-- Body of `GreedyHeuristic.handle_insufficient_energy` (heuristic.py
lines 112-126): append the nearest station; on `BatteryCriticalException`
remove the last node (fatal `SystemExit` if the route is empty) and make
the recursive call — which passes `self._temp_route` to a method taking
only `self`. Fuel bounds the recursion. -/
def handleInsufficientEnergyBody (cfg : Cfg) (cache : List CacheRec) :
    Nat → GreedyState → Except PyErr GreedyState
  | 0, _ => .error .outOfFuel
  | fuel + 1, st =>
    let dest := find_nearest cache st.customers st.tempRoute.lastNode "station"
    match routeAppend cfg cache st.tempRoute dest with
    | .ok r => .ok { st with tempRoute := r }
    | .error .batteryCritical =>
      match st.tempRoute.lastNode with
      | none => .error .systemExitBattery
      | some last =>
        match routeRemove cfg cache st.tempRoute last with
        | .ok r2 =>
          pyBoundMethodCall handleInsufficientEnergyParamCount
            handleInsufficientEnergyArgCount
            (handleInsufficientEnergyBody cfg cache fuel { st with tempRoute := r2 })
        | .error e => .error (.routeFault e)
    | .error e => .error (.routeFault e)

/-- Body of `GreedyHeuristic.handle_max_time_exceeded` (heuristic.py lines
98-110): append the depot; on `MaximumTimeException` remove the last node
(fatal `SystemExit` if the route is empty) and make the recursive call —
which passes `self._temp_route` to a method taking only `self`. -/
def handleMaxTimeExceededBody (cfg : Cfg) (cache : List CacheRec) :
    Nat → GreedyState → Except PyErr GreedyState
  | 0, _ => .error .outOfFuel
  | fuel + 1, st =>
    match routeAppend cfg cache st.tempRoute (some cfg.depot) with
    | .ok r => .ok { st with tempRoute := r }
    | .error .maximumTime =>
      match st.tempRoute.lastNode with
      | none => .error .systemExitMaxTime
      | some last =>
        match routeRemove cfg cache st.tempRoute last with
        | .ok r2 =>
          pyBoundMethodCall handleMaxTimeExceededParamCount
            handleMaxTimeExceededArgCount
            (handleMaxTimeExceededBody cfg cache fuel { st with tempRoute := r2 })
        | .error e => .error (.routeFault e)
    | .error e => .error (.routeFault e)

/-- The `while True` loop of `GreedyHeuristic.create_feasible_route`
(heuristic.py lines 65-96), with `current_node` threaded explicitly. On
`BatteryCriticalException` the handler call (wrong arity) is made and the
loop continues; on `MaximumTimeException` the handler call is made and the
function returns; `UnfeasibleRouteException` is logged and the loop
continues; a successful append removes the destination from
`self._customer` — `ValueError` there returns if the destination is the
depot and no customer remains, and re-raises otherwise. -/
def createFeasibleRouteLoop (cfg : Cfg) (cache : List CacheRec) :
    Nat → HNode → GreedyState → Except PyErr GreedyState
  | 0, _, _ => .error .outOfFuel
  | fuel + 1, currentNode, st =>
    let dest : Option HNode :=
      if st.customers.length = 0 then some cfg.depot
      else find_nearest cache st.customers (some currentNode) "customer"
    match routeAppend cfg cache st.tempRoute dest with
    | .error .batteryCritical =>
      match pyBoundMethodCall handleInsufficientEnergyParamCount
          handleInsufficientEnergyArgCount
          (handleInsufficientEnergyBody cfg cache fuel st) with
      | .ok st2 => createFeasibleRouteLoop cfg cache fuel currentNode st2
      | .error e => .error e
    | .error .maximumTime =>
      match pyBoundMethodCall handleMaxTimeExceededParamCount
          handleMaxTimeExceededArgCount
          (handleMaxTimeExceededBody cfg cache fuel st) with
      | .ok st2 => .ok st2
      | .error e => .error e
    | .error .unfeasible => createFeasibleRouteLoop cfg cache fuel currentNode st
    | .error e => .error (.routeFault e)
    | .ok r =>
      let st2 : GreedyState := { st with tempRoute := r }
      match dest with
      | some d =>
        if st2.customers.contains d then
          createFeasibleRouteLoop cfg cache fuel d
            { st2 with customers := st2.customers.erase d }
        else if d = cfg.depot ∧ st2.customers.length = 0 then .ok st2
        else .error .valueError
      | none => .error .valueError

/-- `GreedyHeuristic.create_feasible_route` (heuristic.py lines 64-96):
the loop starts with `current_node = self._depot`. -/
def create_feasible_route (cfg : Cfg) (cache : List CacheRec) (fuel : Nat)
    (st : GreedyState) : Except PyErr GreedyState :=
  createFeasibleRouteLoop cfg cache fuel cfg.depot st

/-- The `while self._customer` loop of
`GreedyHeuristic.create_feasible_solution` (heuristic.py lines 53-62):
while customers remain, build a route and append `self._temp_route` to
`sol.routes`. -/
def createFeasibleSolutionLoop (cfg : Cfg) (cache : List CacheRec) :
    Nat → List RouteState → GreedyState →
    Except PyErr (List RouteState × GreedyState)
  | 0, _, _ => .error .outOfFuel
  | fuel + 1, routes, st =>
    if st.customers.length = 0 then .ok (routes, st)
    else
      match create_feasible_route cfg cache fuel st with
      | .ok st2 => createFeasibleSolutionLoop cfg cache fuel (routes ++ [st2.tempRoute]) st2
      | .error e => .error e

/-- `GreedyHeuristic.create_feasible_solution` (heuristic.py lines 53-62). -/
def create_feasible_solution (cfg : Cfg) (cache : List CacheRec) (fuel : Nat)
    (st : GreedyState) : Except PyErr (List RouteState × GreedyState) :=
  createFeasibleSolutionLoop cfg cache fuel [] st

/-! ## Concrete problem instances for the greedy heuristic -/

/-- The depot node of the concrete instances. -/
def nD : HNode := ⟨0, 0, "depot"⟩

/-- First customer of the concrete instances. -/
def nC1 : HNode := ⟨1, 0, "customer"⟩

/-- Second customer of the concrete instances. -/
def nC2 : HNode := ⟨2, 0, "customer"⟩

/-- Battery-tight instance: reaching the only customer costs 95 kJ of the
100 kJ capacity, dropping the charge below the 10 kJ critical threshold. -/
def cfgBattery : Cfg := ⟨nD, 100, 10, 1000⟩

/-- Cache of the battery-tight instance. -/
def cacheBattery : List CacheRec := [⟨nD, nC1, 5, 95⟩]

/-- Time-tight instance: reaching the only customer takes 20 minutes
against a 10-minute limit. -/
def cfgTime : Cfg := ⟨nD, 1000, 0, 10⟩

/-- Cache of the time-tight instance. -/
def cacheTime : List CacheRec := [⟨nD, nC1, 20, 1⟩]

/-- Two-customer instance whose second leg exceeds the 10-minute limit, so
the first route must close early and a second route must start. -/
def cacheTwoRoutes : List CacheRec :=
  [⟨nD, nC1, 2, 1⟩, ⟨nC1, nC2, 100, 1⟩, ⟨nC1, nD, 2, 1⟩, ⟨nD, nC2, 2, 1⟩, ⟨nC2, nD, 2, 1⟩]

/-! ## Neighborhood generators (heuristic.py lines 145-275)

Each generator starts with `mod_sol = copy.deepcopy(sol)` and then mutates
`mod_sol` in place, executing `yield mod_sol` after every feasible move.
The run is modelled over a two-object heap — the input Solution and the one
deep copy — so that which object each yield returns is observable.  A
Solution is its list of routes; a route is the sequence of its Paths' end
nodes (`route._paths[i].last_node()`).  Indexing a route position that no
longer exists (route lengths change under `remove`/`insert`) is a Python
`IndexError` escaping the generator, modelled by the `fault` flag. -/

/-- The heap objects of one generator run. -/
inductive GenObj where
  | inputSolArg
  | modSolCopy
deriving DecidableEq, Repr

/-- State of one generator run: the value of the input Solution, the value
of `mod_sol`, the yield log — which object was yielded, with its value at
yield time — and the index-fault flag. -/
structure GenState where
  inputSol : List (List HNode)
  modSol : List (List HNode)
  yields : List (GenObj × List (List HNode))
  fault : Bool
deriving DecidableEq, Repr

/-- `mod_sol = copy.deepcopy(sol)`: a fresh second object with the same
value. -/
def genInit (sol : List (List HNode)) : GenState := ⟨sol, sol, [], false⟩

/-- `yield mod_sol`: the yielded reference is the `mod_sol` object; its
value at yield time is logged beside it. -/
def genYield (st : GenState) : GenState :=
  { st with yields := st.yields ++ [(GenObj.modSolCopy, st.modSol)] }

/-- Python `range(a, b)`. -/
def pyRange (a b : Nat) : List Nat := (List.range b).drop a

/-- Python `list.insert(pos, item)`: clamps an out-of-range position to an
append. -/
def pyListInsert (l : List HNode) (pos : Nat) (n : HNode) : List HNode :=
  if l.length ≤ pos then l ++ [n] else l.insertIdx pos n

/-- Modelled from the spec: `Route.swap(a, b)` (§4.4) exchanges the two
nodes and re-validates the route; on violation the route is unchanged and
`UnfeasibleRouteException` is raised (`none`). -/
def routeListSwap (cfg : Cfg) (cache : List CacheRec) (r : List HNode)
    (a b : HNode) : Option (List HNode) :=
  let r2 := r.map (fun n => if n = a then b else if n = b then a else n)
  match routeReplayGo cfg cache (emptyRoute cfg) r2 with
  | .ok _ => some r2
  | .error _ => none

/-- Modelled from the spec: `Route.remove(node)` at the node-sequence
level (§4.4): drop the node, re-link along cached greenest Paths and
re-validate; on violation the route is unchanged (`none`). -/
def routeListRemove (cfg : Cfg) (cache : List CacheRec) (r : List HNode)
    (n : HNode) : Option (List HNode) :=
  let r2 := r.erase n
  match routeReplayGo cfg cache (emptyRoute cfg) r2 with
  | .ok _ => some r2
  | .error _ => none

/-- Modelled from the spec: `Route.insert(node, position)` (§4.4): insert
the node at the position and re-validate; on violation the route is
unchanged (`none`). -/
def routeListInsert (cfg : Cfg) (cache : List CacheRec) (r : List HNode)
    (n : HNode) (pos : Nat) : Option (List HNode) :=
  let r2 := pyListInsert r pos n
  match routeReplayGo cfg cache (emptyRoute cfg) r2 with
  | .ok _ => some r2
  | .error _ => none

/-- Innermost loop of `two_opt_neighbors` (heuristic.py lines 161-170):
`for j in range(i + 1, len(route._paths))` with `node_i` fixed at j-loop
entry; a feasible `route.swap(node_i, node_j)` commits into `mod_sol` and
yields it, an unfeasible one is skipped. -/
def twoOptJ (cfg : Cfg) (cache : List CacheRec) (rIdx : Nat) (nodeI : HNode) :
    List Nat → GenState → GenState
  | [], st => st
  | j :: js, st =>
    if st.fault then st
    else
      match (st.modSol.getD rIdx []).get? j with
      | none => { st with fault := true }
      | some nodeJ =>
        match routeListSwap cfg cache (st.modSol.getD rIdx []) nodeI nodeJ with
        | none => twoOptJ cfg cache rIdx nodeI js st
        | some r2 =>
          twoOptJ cfg cache rIdx nodeI js
            (genYield { st with modSol := st.modSol.set rIdx r2 })

/-- Middle loop of `two_opt_neighbors` (lines 159-160): `for i in
range(len(route._paths) - 1)`, capturing `node_i` and the j-range from the
current route state. -/
def twoOptI (cfg : Cfg) (cache : List CacheRec) (rIdx : Nat) :
    List Nat → GenState → GenState
  | [], st => st
  | i :: is2, st =>
    if st.fault then st
    else
      match (st.modSol.getD rIdx []).get? i with
      | none => { st with fault := true }
      | some nodeI =>
        twoOptI cfg cache rIdx is2
          (twoOptJ cfg cache rIdx nodeI
            (pyRange (i + 1) (st.modSol.getD rIdx []).length) st)

/-- Outer loop of `two_opt_neighbors` (line 158): `for route in
mod_sol.routes`. -/
def twoOptRoutes (cfg : Cfg) (cache : List CacheRec) :
    List Nat → GenState → GenState
  | [], st => st
  | rIdx :: rs, st =>
    if st.fault then st
    else
      twoOptRoutes cfg cache rs
        (twoOptI cfg cache rIdx
          (List.range ((st.modSol.getD rIdx []).length - 1)) st)

/-- `two_opt_neighbors(sol)` (heuristic.py lines 145-170), as a whole run:
final heap state plus the yield log. -/
def two_opt_neighbors (cfg : Cfg) (cache : List CacheRec)
    (sol : List (List HNode)) : GenState :=
  twoOptRoutes cfg cache (List.range (genInit sol).modSol.length) (genInit sol)

/-- Innermost loop of `move_neighbors` (heuristic.py lines 234-243):
`route.remove(node_i)` then `route.insert(node_i, j - 1)`; each call is
atomic on its own, so a failing insert leaves the committed remove in
place (the pair is not rolled back). -/
def moveJ (cfg : Cfg) (cache : List CacheRec) (rIdx : Nat) (nodeI : HNode) :
    List Nat → GenState → GenState
  | [], st => st
  | j :: js, st =>
    if st.fault then st
    else
      match routeListRemove cfg cache (st.modSol.getD rIdx []) nodeI with
      | none => moveJ cfg cache rIdx nodeI js st
      | some r2 =>
        match routeListInsert cfg cache ((st.modSol.set rIdx r2).getD rIdx [])
            nodeI (j - 1) with
        | none => moveJ cfg cache rIdx nodeI js { st with modSol := st.modSol.set rIdx r2 }
        | some r3 =>
          moveJ cfg cache rIdx nodeI js
            (genYield { st with modSol := (st.modSol.set rIdx r2).set rIdx r3 })

/-- Middle loop of `move_neighbors` (lines 232-233). -/
def moveI (cfg : Cfg) (cache : List CacheRec) (rIdx : Nat) :
    List Nat → GenState → GenState
  | [], st => st
  | i :: is2, st =>
    if st.fault then st
    else
      match (st.modSol.getD rIdx []).get? i with
      | none => { st with fault := true }
      | some nodeI =>
        moveI cfg cache rIdx is2
          (moveJ cfg cache rIdx nodeI
            (pyRange (i + 1) (st.modSol.getD rIdx []).length) st)

/-- Outer loop of `move_neighbors` (line 231). -/
def moveRoutes (cfg : Cfg) (cache : List CacheRec) :
    List Nat → GenState → GenState
  | [], st => st
  | rIdx :: rs, st =>
    if st.fault then st
    else
      moveRoutes cfg cache rs
        (moveI cfg cache rIdx
          (List.range ((st.modSol.getD rIdx []).length - 1)) st)

/-- `move_neighbors(sol)` (heuristic.py lines 228-243). -/
def move_neighbors (cfg : Cfg) (cache : List CacheRec)
    (sol : List (List HNode)) : GenState :=
  moveRoutes cfg cache (List.range (genInit sol).modSol.length) (genInit sol)

/-- The try block of `swap_neighbors` (heuristic.py lines 257-269):
`route_a.remove(node_i); route_b.remove(node_j); route_a.insert(node_j, i);
route_a.insert(node_i, j)` — note that BOTH inserts go into `route_a`,
mirroring the source; each call is atomic, a failure at any point keeps
the mutations already committed and skips the yield. -/
def swapTry (cfg : Cfg) (cache : List CacheRec) (a b i j : Nat)
    (nodeI nodeJ : HNode) (st : GenState) : GenState :=
  match routeListRemove cfg cache (st.modSol.getD a []) nodeI with
  | none => st
  | some ra1 =>
    match routeListRemove cfg cache ((st.modSol.set a ra1).getD b []) nodeJ with
    | none => { st with modSol := st.modSol.set a ra1 }
    | some rb1 =>
      match routeListInsert cfg cache
          (((st.modSol.set a ra1).set b rb1).getD a []) nodeJ i with
      | none => { st with modSol := (st.modSol.set a ra1).set b rb1 }
      | some ra2 =>
        match routeListInsert cfg cache
            ((((st.modSol.set a ra1).set b rb1).set a ra2).getD a []) nodeI j with
        | none => { st with modSol := ((st.modSol.set a ra1).set b rb1).set a ra2 }
        | some ra3 =>
          genYield
            { st with modSol := (((st.modSol.set a ra1).set b rb1).set a ra2).set a ra3 }

/-- Innermost loop of `swap_neighbors` (lines 255-256): `for j in
range(len(route_b._paths))` captured at loop entry; `node_j` is read from
the current `route_b`, which may have shrunk (IndexError fault). -/
def swapJ (cfg : Cfg) (cache : List CacheRec) (a b i : Nat) (nodeI : HNode) :
    List Nat → GenState → GenState
  | [], st => st
  | j :: js, st =>
    if st.fault then st
    else
      match (st.modSol.getD b []).get? j with
      | none => { st with fault := true }
      | some nodeJ =>
        swapJ cfg cache a b i nodeI js (swapTry cfg cache a b i j nodeI nodeJ st)

/-- `for i in range(len(route_a._paths))` of `swap_neighbors` (lines
253-254). -/
def swapI (cfg : Cfg) (cache : List CacheRec) (a b : Nat) :
    List Nat → GenState → GenState
  | [], st => st
  | i :: is2, st =>
    if st.fault then st
    else
      match (st.modSol.getD a []).get? i with
      | none => { st with fault := true }
      | some nodeI =>
        swapI cfg cache a b is2
          (swapJ cfg cache a b i nodeI
            (List.range (st.modSol.getD b []).length) st)

/-- `for b in range(a + 1, len(mod_sol.routes))` of `swap_neighbors`
(lines 251-252). -/
def swapB (cfg : Cfg) (cache : List CacheRec) (a : Nat) :
    List Nat → GenState → GenState
  | [], st => st
  | b :: bs, st =>
    if st.fault then st
    else
      swapB cfg cache a bs
        (swapI cfg cache a b (List.range (st.modSol.getD a []).length) st)

/-- `for a in range(len(mod_sol.routes) - 1)` of `swap_neighbors`
(lines 249-250). -/
def swapA (cfg : Cfg) (cache : List CacheRec) :
    List Nat → GenState → GenState
  | [], st => st
  | a :: as2, st =>
    if st.fault then st
    else
      swapA cfg cache as2
        (swapB cfg cache a (pyRange (a + 1) st.modSol.length) st)

/-- `swap_neighbors(sol)` (heuristic.py lines 246-269). -/
def swap_neighbors (cfg : Cfg) (cache : List CacheRec)
    (sol : List (List HNode)) : GenState :=
  swapA cfg cache (List.range ((genInit sol).modSol.length - 1)) (genInit sol)

/-- A local variable holding a Route: either an alias of
`mod_sol.routes[idx]` or a detached copy (after `route =
copy.deepcopy(route_bkp)`, heuristic.py line 217, which rebinds the loop
variable without writing back into `mod_sol`). -/
inductive RouteRef where
  | inSol (idx : Nat)
  | detached (r : List HNode)
deriving DecidableEq, Repr

/-- Dereference the local `route` variable. -/
def refGet (st : GenState) : RouteRef → List HNode
  | .inSol idx => st.modSol.getD idx []
  | .detached r => r

/-- `route.swap(x, y)` through the local variable: a mutation through the
alias commits into `mod_sol`; one on a detached copy does not.  The Bool
says whether the call succeeded (no `UnfeasibleRouteException`). -/
def refSwap (cfg : Cfg) (cache : List CacheRec) (st : GenState)
    (ref : RouteRef) (x y : HNode) : GenState × RouteRef × Bool :=
  match ref with
  | .inSol idx =>
    match routeListSwap cfg cache (st.modSol.getD idx []) x y with
    | none => (st, .inSol idx, false)
    | some r2 => ({ st with modSol := st.modSol.set idx r2 }, .inSol idx, true)
  | .detached r =>
    match routeListSwap cfg cache r x y with
    | none => (st, .detached r, false)
    | some r2 => (st, .detached r2, true)

/-- First try block of `three_opt_neighbors` (heuristic.py lines 209-216):
`route.swap(node_i, node_j); route.swap(node_i, node_k)`, yielding
`mod_sol` when both succeed; a failure is caught, keeping whatever the
first call already committed. -/
def threeOptTryOne (cfg : Cfg) (cache : List CacheRec) (nI nJ nK : HNode)
    (st : GenState) (ref : RouteRef) : GenState × RouteRef :=
  match refSwap cfg cache st ref nI nJ with
  | (st1, ref1, false) => (st1, ref1)
  | (st1, ref1, true) =>
    match refSwap cfg cache st1 ref1 nI nK with
    | (st2, ref2, false) => (st2, ref2)
    | (st2, ref2, true) => (genYield st2, ref2)

/-- Second try block of `three_opt_neighbors` (lines 218-225):
`route.swap(node_i, node_k); route.swap(node_j, node_i)` on the rebound
route, yielding `mod_sol` when both succeed. -/
def threeOptTryTwo (cfg : Cfg) (cache : List CacheRec) (nI nJ nK : HNode)
    (st : GenState) (ref : RouteRef) : GenState × RouteRef :=
  match refSwap cfg cache st ref nI nK with
  | (st1, ref1, false) => (st1, ref1)
  | (st1, ref1, true) =>
    match refSwap cfg cache st1 ref1 nJ nI with
    | (st2, ref2, false) => (st2, ref2)
    | (st2, ref2, true) => (genYield st2, ref2)

/-- One k-iteration of `three_opt_neighbors` (lines 207-225): back up the
current route value (`route_bkp = copy.deepcopy(route)`), run the first
try block, rebind `route` to a deep copy of the backup, and run the second
try block on that detached copy. -/
def threeOptKBody (cfg : Cfg) (cache : List CacheRec) (nI nJ nK : HNode)
    (st : GenState) (ref : RouteRef) : GenState × RouteRef :=
  let routeBkp := refGet st ref
  let p := threeOptTryOne cfg cache nI nJ nK st ref
  threeOptTryTwo cfg cache nI nJ nK p.1 (RouteRef.detached routeBkp)

/-- `for k in range(j + 1, len(route._paths))` of `three_opt_neighbors`
(lines 206-207). -/
def threeOptK (cfg : Cfg) (cache : List CacheRec) (nI nJ : HNode) :
    List Nat → GenState × RouteRef → GenState × RouteRef
  | [], p => p
  | k :: ks, (st, ref) =>
    if st.fault then (st, ref)
    else
      match (refGet st ref).get? k with
      | none => ({ st with fault := true }, ref)
      | some nK =>
        threeOptK cfg cache nI nJ ks (threeOptKBody cfg cache nI nJ nK st ref)

/-- `for j in range(i + 1, len(route._paths) - 1)` of
`three_opt_neighbors` (lines 204-205). -/
def threeOptJ (cfg : Cfg) (cache : List CacheRec) (nI : HNode) :
    List Nat → GenState × RouteRef → GenState × RouteRef
  | [], p => p
  | j :: js, (st, ref) =>
    if st.fault then (st, ref)
    else
      match (refGet st ref).get? j with
      | none => ({ st with fault := true }, ref)
      | some nJ =>
        threeOptJ cfg cache nI js
          (threeOptK cfg cache nI nJ
            (pyRange (j + 1) (refGet st ref).length) (st, ref))

/-- `for i in range(len(route._paths) - 2)` of `three_opt_neighbors`
(lines 202-203). -/
def threeOptI (cfg : Cfg) (cache : List CacheRec) :
    List Nat → GenState × RouteRef → GenState × RouteRef
  | [], p => p
  | i :: is2, (st, ref) =>
    if st.fault then (st, ref)
    else
      match (refGet st ref).get? i with
      | none => ({ st with fault := true }, ref)
      | some nI =>
        threeOptI cfg cache is2
          (threeOptJ cfg cache nI
            (pyRange (i + 1) ((refGet st ref).length - 1)) (st, ref))

/-- `for route in mod_sol.routes` of `three_opt_neighbors` (line 201):
each iteration binds the local `route` variable to an alias of the next
route of `mod_sol`. -/
def threeOptRoutes (cfg : Cfg) (cache : List CacheRec) :
    List Nat → GenState → GenState
  | [], st => st
  | rIdx :: rs, st =>
    if st.fault then st
    else
      threeOptRoutes cfg cache rs
        (threeOptI cfg cache
          (List.range ((st.modSol.getD rIdx []).length - 2))
          (st, RouteRef.inSol rIdx)).1

/-- `three_opt_neighbors(sol)` (heuristic.py lines 173-225). -/
def three_opt_neighbors (cfg : Cfg) (cache : List CacheRec)
    (sol : List (List HNode)) : GenState :=
  threeOptRoutes cfg cache (List.range (genInit sol).modSol.length) (genInit sol)

/-- Third customer of the concrete instances. -/
def nC3 : HNode := ⟨3, 0, "customer"⟩

/-- Generous configuration under which every route permutation of the
concrete generator instances is feasible. -/
def cfgGen : Cfg := ⟨nD, 1000, 0, 1000⟩

/-- Complete cache over the depot and the three customers: every ordered
pair is connected with unit time and energy, so replays always succeed. -/
def cacheGen : List CacheRec :=
  [⟨nD, nC1, 1, 1⟩, ⟨nD, nC2, 1, 1⟩, ⟨nD, nC3, 1, 1⟩,
   ⟨nC1, nC2, 1, 1⟩, ⟨nC1, nC3, 1, 1⟩, ⟨nC2, nC1, 1, 1⟩,
   ⟨nC2, nC3, 1, 1⟩, ⟨nC3, nC1, 1, 1⟩, ⟨nC3, nC2, 1, 1⟩,
   ⟨nC1, nD, 1, 1⟩, ⟨nC2, nD, 1, 1⟩, ⟨nC3, nD, 1, 1⟩]

/-- Invariant of a generator run: the input Solution object still holds its
original value, and every yield so far returned the `mod_sol` object. -/
def GenGood (sol0 : List (List HNode)) (st : GenState) : Prop :=
  st.inputSol = sol0 ∧ ∀ y ∈ st.yields, y.1 = GenObj.modSolCopy

/-! ## graph.py: the abstract graph and CachePaths

Nodes of the abstract graph are (latitude, longitude) pairs; edges carry
the attribute dictionary built by `get_abstract_graph` (graph.py lines
198-229).  Attribute values are modelled as integers: `CachePaths` only
sums and compares them. -/

/-- A graph node key: the (latitude, longitude) coordinate pair. -/
abbrev Coord := Int × Int

/-- The edge attribute dictionary as `get_abstract_graph` builds it
(graph.py lines 210-227): keys length, osm_id, rise, slope, speed, time,
energy. -/
structure EdgeAttr where
  length : ℤ
  osmId : ℤ
  rise : ℤ
  slope : ℤ
  speed : ℤ
  time : ℤ
  energy : ℤ
deriving DecidableEq, Repr

/-- Dictionary key lookup on the edge attribute dict: `data.get(key)`. -/
def EdgeAttr.getAttr (a : EdgeAttr) (key : String) : Option ℤ :=
  if key = "length" then some a.length
  else if key = "osm_id" then some a.osmId
  else if key = "rise" then some a.rise
  else if key = "slope" then some a.slope
  else if key = "speed" then some a.speed
  else if key = "time" then some a.time
  else if key = "energy" then some a.energy
  else none

/-- networkx edge weight access `data.get(weight, 1)`: an absent key —
such as the misspelt 'lenght' — silently weighs every edge 1. -/
def nxEdgeWeight (a : EdgeAttr) (weight : String) : ℤ := (a.getAttr weight).getD 1

/-- The abstract directed graph: nodes with their 'type' attribute, and
attributed edges. -/
structure AbstractGraph where
  nodes : List (Coord × String)
  edges : List (Coord × Coord × EdgeAttr)
deriving Repr

/-- `graph.edge[u][v]`. -/
def edgeData (g : AbstractGraph) (u v : Coord) : Option EdgeAttr :=
  (g.edges.find? (fun e => decide (e.1 = u) && decide (e.2.1 = v))).map (fun e => e.2.2)

/-- `graph.node[c]['type']`. -/
def nodeType (g : AbstractGraph) (c : Coord) : String :=
  ((g.nodes.find? (fun p => decide (p.1 = c))).map (fun p => p.2)).getD ""

/-- A finalized Dijkstra entry: a node, its distance from the source and a
minimal-weight path reaching it. -/
structure DijkEntry where
  node : Coord
  dist : ℤ
  path : List Coord
deriving DecidableEq, Repr

/-- The tentative frontier: every edge from a finalized node to a
not-yet-finalized one extends that node's path. -/
def dijkCandidates (g : AbstractGraph) (weight : String)
    (final : List DijkEntry) : List DijkEntry :=
  final.flatMap (fun ent =>
    (g.edges.filter (fun e => decide (e.1 = ent.node) &&
        !(final.any (fun f => decide (f.node = e.2.1))))).map
      (fun e => ⟨e.2.1, ent.dist + nxEdgeWeight e.2.2 weight, ent.path ++ [e.2.1]⟩))

/-- The frontier entry of minimal distance (the earliest on a tie). -/
def pickMinDijk : List DijkEntry → Option DijkEntry
  | [] => none
  | c :: cs => some (cs.foldl (fun best x => if x.dist < best.dist then x else best) c)

/-- Dijkstra's main loop: finalize one node per round. -/
def dijkLoop (g : AbstractGraph) (weight : String) :
    Nat → List DijkEntry → List DijkEntry
  | 0, final => final
  | n + 1, final =>
    match pickMinDijk (dijkCandidates g weight final) with
    | none => final
    | some ent => dijkLoop g weight n (final ++ [ent])

/-- Models networkx `single_source_dijkstra_path(graph, src, weight)`
(called at graph.py lines 363-365): for every node reachable from `src`, a
path of minimal total weight, the weight of an edge being
`data.get(weight, 1)` — non-negative weights assumed. -/
def single_source_dijkstra_path (g : AbstractGraph) (src : Coord)
    (weight : String) : List (Coord × List Coord) :=
  (dijkLoop g weight g.nodes.length [⟨src, 0, [src]⟩]).map (fun e => (e.node, e.path))

/-- Bellman-Ford state: the predecessor and distance dictionaries. -/
structure BFState where
  pred : List (Coord × Option Coord)
  dist : List (Coord × ℤ)
deriving DecidableEq, Repr

/-- Dictionary lookup in the distance dict. -/
def assocDist (l : List (Coord × ℤ)) (c : Coord) : Option ℤ :=
  (l.find? (fun p => decide (p.1 = c))).map (fun p => p.2)

/-- Update-or-append in the predecessor dict. -/
def upsertPred (l : List (Coord × Option Coord)) (c : Coord)
    (v : Option Coord) : List (Coord × Option Coord) :=
  if l.any (fun p => decide (p.1 = c)) then
    l.map (fun p => if p.1 = c then (c, v) else p)
  else l ++ [(c, v)]

/-- Update-or-append in the distance dict. -/
def upsertDist (l : List (Coord × ℤ)) (c : Coord) (v : ℤ) :
    List (Coord × ℤ) :=
  if l.any (fun p => decide (p.1 = c)) then
    l.map (fun p => if p.1 = c then (c, v) else p)
  else l ++ [(c, v)]

/-- Relax one edge. -/
def bfRelaxEdge (weight : String) (st : BFState)
    (e : Coord × Coord × EdgeAttr) : BFState :=
  match assocDist st.dist e.1 with
  | none => st
  | some du =>
    let dv := du + nxEdgeWeight e.2.2 weight
    let better :=
      match assocDist st.dist e.2.1 with
      | none => true
      | some old => decide (dv < old)
    if better then ⟨upsertPred st.pred e.2.1 (some e.1), upsertDist st.dist e.2.1 dv⟩
    else st

/-- Models networkx `bellman_ford(graph, src, weight)` (called at graph.py
line 368): the predecessor and distance dictionaries of single-source
shortest paths under weights that may be negative, given no negative
cycle. -/
def bellman_ford (g : AbstractGraph) (src : Coord) (weight : String) : BFState :=
  (List.range g.nodes.length).foldl
    (fun st _ => g.edges.foldl (bfRelaxEdge weight) st)
    ⟨[(src, none)], [(src, 0)]⟩

/-- `Path(graph, coor_list)` (graph.py lines 429-436): the node triples
(lat, lon, type), the type read off the graph. -/
def mkPath (g : AbstractGraph) (coors : List Coord) : List (Coord × String) :=
  coors.map (fun c => (c, nodeType g c))

/-- One record of `CachePaths.__cache` (graph.py lines 335-339):
(src, dest, greenest Path, shortest Path). -/
structure GCacheRec where
  src : Coord
  dst : Coord
  greenestPath : List (Coord × String)
  shortestPath : List (Coord × String)
deriving DecidableEq, Repr

/-- `CachePaths.__add` (graph.py lines 341-352): skip self pairs, update
an existing (src, dest) record in place, else append. -/
def cacheAdd (g : AbstractGraph) (cache : List GCacheRec) (src dst : Coord)
    (greenCoors shortCoors : List Coord) : List GCacheRec :=
  if src = dst then cache
  else
    if cache.any (fun t => decide (t.src = src) && decide (t.dst = dst)) then
      cache.map (fun t =>
        if t.src = src ∧ t.dst = dst then
          ⟨src, dst, mkPath g greenCoors, mkPath g shortCoors⟩
        else t)
    else cache ++ [⟨src, dst, mkPath g greenCoors, mkPath g shortCoors⟩]

/-- Unrolling of the greenest path from the Bellman-Ford predecessor dict
(graph.py lines 378-383): walk predecessors until None; the accumulator
rebuilds the source-to-destination order the source obtains by reversing. -/
def unrollPred (pred : List (Coord × Option Coord)) :
    Nat → Coord → List Coord → Option (List Coord)
  | 0, _, _ => none
  | n + 1, nodeToAdd, acc =>
    match (pred.find? (fun p => decide (p.1 = nodeToAdd))).map (fun p => p.2) with
    | none => none
    | some none => some (nodeToAdd :: acc)
    | some (some q) => unrollPred pred n q (nodeToAdd :: acc)

/-- The point-of-interest whitelist of `CachePaths.__init__` (line 354). -/
def typeWhitelist : List String := ["depot", "customer", "station"]

/-- `CachePaths.__init__(graph)` (graph.py lines 354-386): from every
whitelisted source node, the shortest-path dict is computed by Dijkstra
with weight key 'lenght' — the misspelling in the source, which matches no
edge attribute, so every edge weighs the default 1 — and the greenest
predecessors by Bellman-Ford over 'energy'; every whitelisted destination
present in both result dicts contributes a record. -/
def cachePathsInit (g : AbstractGraph) : List GCacheRec :=
  g.nodes.foldl
    (fun cache srcp =>
      if typeWhitelist.contains srcp.2 then
        let shortestPaths := single_source_dijkstra_path g srcp.1 "lenght"
        let bf := bellman_ford g srcp.1 "energy"
        g.nodes.foldl
          (fun cache2 dstp =>
            if typeWhitelist.contains dstp.2 && !(decide (dstp.1 = srcp.1)) &&
                shortestPaths.any (fun p => decide (p.1 = dstp.1)) &&
                bf.dist.any (fun p => decide (p.1 = dstp.1)) then
              match unrollPred bf.pred (g.nodes.length + 1) dstp.1 [],
                  shortestPaths.find? (fun p => decide (p.1 = dstp.1)) with
              | some greenCoors, some sp => cacheAdd g cache2 srcp.1 dstp.1 greenCoors sp.2
              | _, _ => cache2
            else cache2)
          cache
      else cache)
    []

/-- Attribute names the module `networkx.exception` defines. -/
def nxExceptionModuleAttrs : List String :=
  ["NetworkXException", "NetworkXError", "NetworkXPointlessConcept",
   "NetworkXAlgorithmError", "NetworkXUnfeasible", "NetworkXNoPath",
   "NetworkXUnbounded", "NetworkXNotImplemented", "AmbiguousSolution",
   "ExceededMaxIterations"]

/-- Outcome of a cache lookup call. -/
inductive LookupOutcome where
  | found (p : List (Coord × String))
  | raisedError (excName : String)
  | attributeError
deriving DecidableEq, Repr

/-- Evaluating `raise nx.exception.<name>(...)`: when the module defines
the attribute, that exception class is raised; otherwise the attribute
access itself dies with `AttributeError`. -/
def raiseFromNxException (name : String) : LookupOutcome :=
  if nxExceptionModuleAttrs.contains name then .raisedError name else .attributeError

/-- `CachePaths.greenest(src, dest)` (graph.py lines 396-402): linear scan
for the record; on a miss, `raise nx.exception.NetworkxNoPath(...)`. -/
def cacheGreenestLookup (cache : List GCacheRec) (src dst : Coord) : LookupOutcome :=
  match cache.find? (fun t => decide (t.src = src) && decide (t.dst = dst)) with
  | some t => .found t.greenestPath
  | none => raiseFromNxException "NetworkxNoPath"

/-- `CachePaths.shortest(src, dest)` (graph.py lines 404-410): linear scan
for the record; on a miss, `raise nx.exception.NetworkxNoPath(...)`. -/
def cacheShortestLookup (cache : List GCacheRec) (src dst : Coord) : LookupOutcome :=
  match cache.find? (fun t => decide (t.src = src) && decide (t.dst = dst)) with
  | some t => .found t.shortestPath
  | none => raiseFromNxException "NetworkxNoPath"

/-- `Path.__sum_over_label` (graph.py lines 448-450): fold the edge
attribute over consecutive node pairs; a missing edge or attribute is a
malformed path (`none`). -/
def sumOverLabelGo (g : AbstractGraph) (label : String) :
    List (Coord × String) → Option ℤ
  | [] => some 0
  | [_] => some 0
  | u :: v :: rest =>
    match edgeData g u.1 v.1, sumOverLabelGo g label (v :: rest) with
    | some a, some s => (a.getAttr label).map (fun w => w + s)
    | _, _ => none

/-- Coordinate of the depot A of the counterexample graph. -/
def cA : Coord := (0, 0)

/-- Coordinate of customer B of the counterexample graph. -/
def cB : Coord := (1, 0)

/-- Coordinate of customer C of the counterexample graph. -/
def cC : Coord := (0, 1)

/-- Edge attributes with the given length, time and energy (osm_id 0,
rise 0, slope 0, speed 50). -/
def mkAttr (len t e : ℤ) : EdgeAttr := ⟨len, 0, 0, 0, 50, t, e⟩

/-- The counterexample graph: depot A, customers B and C; a direct road
A→B of length 10 beside the two-leg route A→C→B of total length 2. -/
def gLen : AbstractGraph :=
  ⟨[(cA, "depot"), (cB, "customer"), (cC, "customer")],
   [(cA, cB, mkAttr 10 10 10), (cA, cC, mkAttr 1 1 1), (cC, cB, mkAttr 1 1 1)]⟩

end EVRP

namespace EVRP

/-! ## Order lemmas for the lexicographic comparison -/

theorem betterLex_irrefl (a : SolObs) : betterLex a a = false := by
  simp [betterLex]

theorem betterLex_trans {a b c : SolObs} (h1 : betterLex a b = true)
    (h2 : betterLex b c = true) : betterLex a c = true := by
  simp only [betterLex, Bool.or_eq_true, Bool.and_eq_true, decide_eq_true_eq] at h1 h2 ⊢
  rcases h1 with h1 | ⟨h1, h1e⟩ <;> rcases h2 with h2 | ⟨h2, h2e⟩
  · exact Or.inl (lt_trans h1 h2)
  · exact Or.inl (h2 ▸ h1)
  · exact Or.inl (h1 ▸ h2)
  · exact Or.inr ⟨h1.trans h2, lt_trans h1e h2e⟩

theorem betterLex_asymm {a b : SolObs} (h1 : betterLex a b = true) :
    betterLex b a = false := by
  by_contra h
  have h2 : betterLex b a = true := by
    cases hb : betterLex b a with
    | false => exact absurd hb h
    | true => rfl
  have := betterLex_trans h1 h2
  rw [betterLex_irrefl] at this
  exact Bool.false_ne_true this

/-- If `x` is not below `a` and `s` is strictly below `a`, then `x` is not
below `s`. -/
theorem betterLex_not_below_of_below {x a s : SolObs} (hx : betterLex x a = false)
    (hs : betterLex s a = true) : betterLex x s = false := by
  cases h : betterLex x s with
  | false => rfl
  | true => exact absurd (betterLex_trans h hs) (by simp [hx])

/-! ## Lemmas about local_search -/

theorem localSearchGo_none_of_no_improving (actual : SolObs) (n : Nat) (l : List SolObs)
    (h : ∀ c ∈ l, betterLex c actual = false) :
    localSearchGo actual n l = .ok (none, n + l.length) := by
  induction l generalizing n with
  | nil => simp [localSearchGo]
  | cons c rest ih =>
    have hc : betterLex c actual = false := h c (List.mem_cons_self _ _)
    simp only [localSearchGo, hc, Bool.false_eq_true, if_false]
    rw [ih (n + 1) (fun x hx => h x (List.mem_cons_of_mem _ hx))]
    simp [List.length_cons]
    ring_nf

theorem localSearchGo_some_first (actual : SolObs) (n : Nat) (l : List SolObs)
    (c : SolObs) (m : Nat) (h : localSearchGo actual n l = .ok (some c, m)) :
    l.find? (fun x => betterLex x actual) = some c ∧ betterLex c actual = true := by
  induction l generalizing n with
  | nil => simp [localSearchGo] at h
  | cons x rest ih =>
    by_cases hx : betterLex x actual = true
    · simp only [localSearchGo, hx, if_true] at h
      by_cases hm : x.missingCustomers = true
      · simp [hm] at h
      · simp only [hm, Bool.false_eq_true, if_false] at h
        by_cases hf : x.feasible = true
        · simp only [hf, Bool.not_true, Bool.false_eq_true, if_false, Except.ok.injEq,
            Prod.mk.injEq, Option.some.injEq] at h
          obtain ⟨hxc, -⟩ := h
          subst hxc
          exact ⟨by simp [List.find?, hx], hx⟩
        · simp [hf] at h
    · have hx2 : betterLex x actual = false := by
        cases hb : betterLex x actual with
        | false => rfl
        | true => exact absurd hb hx
      simp only [localSearchGo, hx2, Bool.false_eq_true, if_false] at h
      obtain ⟨h1, h2⟩ := ih (n + 1) h
      refine ⟨?_, h2⟩
      simp [List.find?, hx2, h1]

theorem localSearchGo_reaches_first (actual : SolObs) (n : Nat) (l : List SolObs)
    (c : SolObs) (hf : l.find? (fun x => betterLex x actual) = some c)
    (hm : c.missingCustomers = false) (hfe : c.feasible = true) :
    ∃ m, localSearchGo actual n l = .ok (some c, m) := by
  induction l generalizing n with
  | nil => simp at hf
  | cons x rest ih =>
    by_cases hx : betterLex x actual = true
    · simp only [List.find?, hx, Option.some.injEq] at hf
      subst hf
      refine ⟨n + 1, ?_⟩
      simp [localSearchGo, hx, hm, hfe]
    · have hx2 : betterLex x actual = false := by
        cases hb : betterLex x actual with
        | false => rfl
        | true => exact absurd hb hx
      simp only [List.find?, hx2] at hf
      obtain ⟨m, hmm⟩ := ih (n + 1) hf
      exact ⟨m, by simp [localSearchGo, hx2, hmm]⟩

/-- Claim C7: for every input solution and neighborhood generator,
`local_search` (a) signals no improvement, returning `None` with the full
candidate count, when no candidate is lexicographically strictly better;
(b) whenever it returns a candidate, that candidate is the first one in the
generator's sequence strictly better than the input under the `(time,
energy)` lexicographic order — in particular never one lexicographically
greater than or equal to the input; and (c) when the first strictly
improving candidate passes the coverage and feasibility assertions,
`local_search` does return exactly it. -/
theorem local_search_first_improving (actual : SolObs) (gen : SolObs → List SolObs) :
    ((∀ c ∈ gen actual, betterLex c actual = false) →
      local_search actual gen = .ok (none, (gen actual).length)) ∧
    (∀ c m, local_search actual gen = .ok (some c, m) →
      (gen actual).find? (fun x => betterLex x actual) = some c ∧
        betterLex c actual = true) ∧
    (∀ c, (gen actual).find? (fun x => betterLex x actual) = some c →
      c.missingCustomers = false → c.feasible = true →
      ∃ m, local_search actual gen = .ok (some c, m)) := by
  refine ⟨?_, ?_, ?_⟩
  · intro h
    have := localSearchGo_none_of_no_improving actual 0 (gen actual) h
    simpa [local_search] using this
  · intro c m h
    exact localSearchGo_some_first actual 0 (gen actual) c m h
  · intro c hf hm hfe
    exact localSearchGo_reaches_first actual 0 (gen actual) c hf hm hfe

/-- Witness for C7 at a concrete input: a two-candidate sequence whose
second candidate is the first strictly improving one, and a sequence with
no improving candidate at all. -/
theorem local_search_first_improving_witness :
    (∃ m, local_search ⟨3, 5, false, true⟩
        (fun _ => [⟨3, 7, false, true⟩, ⟨2, 9, false, true⟩]) =
      .ok (some ⟨2, 9, false, true⟩, m)) ∧
    (local_search ⟨3, 5, false, true⟩ (fun _ => [⟨3, 7, false, true⟩]) =
      .ok (none, 1)) := by
  have h := local_search_first_improving ⟨3, 5, false, true⟩
    (fun _ => [⟨3, 7, false, true⟩, ⟨2, 9, false, true⟩])
  have h2 := local_search_first_improving ⟨3, 5, false, true⟩
    (fun _ => [⟨3, 7, false, true⟩])
  exact ⟨h.2.2 ⟨2, 9, false, true⟩ (by decide) rfl rfl, h2.1 (by decide)⟩

/-! ## Lemmas about the metaheuristic ghost logs -/

theorem examinedCands_subset (actual : SolObs) (l : List SolObs) :
    ∀ x ∈ examinedCands actual l, x ∈ l := by
  induction l with
  | nil => simp [examinedCands]
  | cons c rest ih =>
    intro x hx
    by_cases hc : betterLex c actual = true
    · simp only [examinedCands, hc, if_true, List.mem_singleton] at hx
      simp [hx]
    · have hc2 : betterLex c actual = false := by
        cases hb : betterLex c actual with
        | false => rfl
        | true => exact absurd hb hc
      simp only [examinedCands, hc2, Bool.false_eq_true, if_false, List.mem_cons] at hx
      rcases hx with hx | hx
      · simp [hx]
      · exact List.mem_cons_of_mem _ (ih x hx)

theorem examinedCands_cases (actual : SolObs) (l : List SolObs) (x : SolObs)
    (hx : x ∈ examinedCands actual l) :
    betterLex x actual = false ∨ l.find? (fun c => betterLex c actual) = some x := by
  induction l with
  | nil => simp [examinedCands] at hx
  | cons c rest ih =>
    by_cases hc : betterLex c actual = true
    · simp only [examinedCands, hc, if_true, List.mem_singleton] at hx
      subst hx
      right
      simp [List.find?, hc]
    · have hc2 : betterLex c actual = false := by
        cases hb : betterLex c actual with
        | false => rfl
        | true => exact absurd hb hc
      simp only [examinedCands, hc2, Bool.false_eq_true, if_false, List.mem_cons] at hx
      rcases hx with hx | hx
      · exact Or.inl (hx ▸ hc2)
      · rcases ih hx with h | h
        · exact Or.inl h
        · right
          simp [List.find?, hc2, h]

theorem localSearchGo_none_all_not_improving (actual : SolObs) (n : Nat)
    (l : List SolObs) (m : Nat) (h : localSearchGo actual n l = .ok (none, m)) :
    ∀ c ∈ l, betterLex c actual = false := by
  induction l generalizing n with
  | nil => simp
  | cons x rest ih =>
    by_cases hx : betterLex x actual = true
    · exfalso
      simp only [localSearchGo, hx, if_true] at h
      by_cases hm : x.missingCustomers = true
      · simp [hm] at h
      · simp only [hm, Bool.false_eq_true, if_false] at h
        by_cases hf : x.feasible = true
        · simp [hf] at h
        · simp [hf] at h
    · have hx2 : betterLex x actual = false := by
        cases hb : betterLex x actual with
        | false => rfl
        | true => exact absurd hb hx
      simp only [localSearchGo, hx2, Bool.false_eq_true, if_false] at h
      intro c hc
      rcases List.mem_cons.mp hc with hcx | hcr
      · exact hcx ▸ hx2
      · exact ih (n + 1) h c hcr

/-- Invariant carried through `metaInner`: the trajectory starts at the
initial solution, ends at the current one, is strictly decreasing, and the
current solution is lexicographically at or below every examined candidate. -/
theorem metaInner_inv (vnsIt : Nat) (gens : List (SolObs → List SolObs))
    (bestIt : Nat) (actual initial : SolObs) (traj observed : List SolObs)
    (hh : traj.head? = some initial) (hl : traj.getLast? = some actual)
    (hc : List.Chain' (fun a b => betterLex b a = true) traj)
    (ho : ∀ x ∈ observed, betterLex x actual = false)
    (a2 : SolObs) (b2 : Nat) (t2 o2 : List SolObs)
    (h : metaInner vnsIt gens bestIt actual traj observed = .ok (a2, b2, t2, o2)) :
    t2.head? = some initial ∧ t2.getLast? = some a2 ∧
    List.Chain' (fun a b => betterLex b a = true) t2 ∧
    (∀ x ∈ o2, betterLex x a2 = false) := by
  induction gens generalizing bestIt actual traj observed with
  | nil =>
    simp only [metaInner, Except.ok.injEq, Prod.mk.injEq] at h
    obtain ⟨h1, -, h3, h4⟩ := h
    subst h1; subst h3; subst h4
    exact ⟨hh, hl, hc, ho⟩
  | cons g rest ih =>
    simp only [metaInner] at h
    cases hls : local_search actual g with
    | error e => rw [hls] at h; exact absurd h (by simp)
    | ok p =>
      obtain ⟨r, n⟩ := p
      cases r with
      | none =>
        rw [hls] at h
        refine ih bestIt actual traj (observed ++ examinedCands actual (g actual))
          hh hl hc ?_ h
        intro x hx
        rcases List.mem_append.mp hx with hx | hx
        · exact ho x hx
        · have hall := localSearchGo_none_all_not_improving actual 0 (g actual) n hls
          exact hall x (examinedCands_subset actual (g actual) x hx)
      | some s =>
        rw [hls] at h
        obtain ⟨hfind, hbetter⟩ :=
          localSearchGo_some_first actual 0 (g actual) s n hls
        have hne : traj ≠ [] := by
          intro hnil; rw [hnil] at hh; simp at hh
        refine ih vnsIt s (traj ++ [s]) (observed ++ examinedCands actual (g actual))
          ?_ ?_ ?_ ?_ h
        · obtain ⟨t, ts, rfl⟩ := List.exists_cons_of_ne_nil hne
          simpa using hh
        · simp
        · rw [List.chain'_append]
          refine ⟨hc, List.chain'_singleton s, ?_⟩
          intro x hx y hy
          rw [hl, Option.mem_some_iff] at hx
          simp only [List.head?_cons, Option.mem_some_iff] at hy
          subst hx; subst hy
          exact hbetter
        · intro x hx
          rcases List.mem_append.mp hx with hx | hx
          · exact betterLex_not_below_of_below (ho x hx) hbetter
          · rcases examinedCands_cases actual (g actual) x hx with hcase | hcase
            · exact betterLex_not_below_of_below hcase hbetter
            · rw [hfind, Option.some.injEq] at hcase
              rw [← hcase]
              exact betterLex_irrefl s

/-- Invariant carried through `metaLoop`. -/
theorem metaLoop_inv (tlim : Nat → Bool) (gens : List (SolObs → List SolObs))
    (its : List Nat) (bestIt : Nat) (actual initial : SolObs)
    (traj observed : List SolObs)
    (hh : traj.head? = some initial) (hl : traj.getLast? = some actual)
    (hc : List.Chain' (fun a b => betterLex b a = true) traj)
    (ho : ∀ x ∈ observed, betterLex x actual = false)
    (a2 : SolObs) (t2 o2 : List SolObs)
    (h : metaLoop tlim gens its bestIt actual traj observed = .ok (a2, t2, o2)) :
    t2.head? = some initial ∧ t2.getLast? = some a2 ∧
    List.Chain' (fun a b => betterLex b a = true) t2 ∧
    (∀ x ∈ o2, betterLex x a2 = false) := by
  induction its generalizing bestIt actual traj observed with
  | nil =>
    simp only [metaLoop, Except.ok.injEq, Prod.mk.injEq] at h
    obtain ⟨h1, h2, h3⟩ := h
    subst h1; subst h2; subst h3
    exact ⟨hh, hl, hc, ho⟩
  | cons vnsIt rest ih =>
    simp only [metaLoop] at h
    by_cases ht : tlim vnsIt = true
    · simp only [ht, if_true, Except.ok.injEq, Prod.mk.injEq] at h
      obtain ⟨h1, h2, h3⟩ := h
      subst h1; subst h2; subst h3
      exact ⟨hh, hl, hc, ho⟩
    · have ht2 : tlim vnsIt = false := by
        cases hb : tlim vnsIt with
        | false => rfl
        | true => exact absurd hb ht
      simp only [ht2, Bool.false_eq_true, if_false] at h
      cases hmi : metaInner vnsIt gens bestIt actual traj observed with
      | error e => rw [hmi] at h; exact absurd h (by simp)
      | ok q =>
        obtain ⟨actual2, bestIt2, traj2, observed2⟩ := q
        rw [hmi] at h
        obtain ⟨ih1, ih2, ih3, ih4⟩ :=
          metaInner_inv vnsIt gens bestIt actual initial traj observed
            hh hl hc ho actual2 bestIt2 traj2 observed2 hmi
        by_cases hstop : bestIt2 + 3 ≤ vnsIt
        · simp only [hstop, if_true, Except.ok.injEq, Prod.mk.injEq] at h
          obtain ⟨h1, h2, h3⟩ := h
          subst h1; subst h2; subst h3
          exact ⟨ih1, ih2, ih3, ih4⟩
        · simp only [hstop, if_false] at h
          exact ih bestIt2 actual2 traj2 observed2 ih1 ih2 ih3 ih4 h

/-- Along a strictly decreasing trajectory the last element is the head or
strictly below it. -/
theorem trajectory_last_le_head (l : List SolObs) (i f : SolObs)
    (hc : List.Chain' (fun a b => betterLex b a = true) l)
    (hh : l.head? = some i) (hl : l.getLast? = some f) :
    f = i ∨ betterLex f i = true := by
  induction l generalizing i with
  | nil => simp at hh
  | cons x rest ih =>
    simp only [List.head?_cons, Option.some.injEq] at hh
    subst hh
    cases rest with
    | nil =>
      simp only [List.getLast?_singleton, Option.some.injEq] at hl
      exact Or.inl hl.symm
    | cons y rest2 =>
      rw [List.chain'_cons] at hc
      have hl2 : (y :: rest2).getLast? = some f := by
        simpa [List.getLast?_cons_cons] using hl
      rcases ih y hc.2 rfl hl2 with hfy | hfy
      · exact Or.inr (hfy ▸ hc.1)
      · exact Or.inr (betterLex_trans hfy hc.1)

/-- Claim C8: whenever `metaheuristic` returns a solution, the successive
values of `actual_solution` form a lexicographically strictly decreasing
trajectory starting at the initial solution and ending at the returned one
(so the objective is non-increasing across iterations), and the returned
solution is lexicographically at or below the initial solution and every
candidate observed by any `local_search` call during the whole search. -/
theorem metaheuristic_monotone_best (tlim : Nat → Bool)
    (gens : List (SolObs → List SolObs)) (maxIter : Nat) (initial : SolObs)
    (final : SolObs) (traj observed : List SolObs)
    (h : metaheuristic tlim gens maxIter initial = .ok (final, traj, observed)) :
    traj.head? = some initial ∧ traj.getLast? = some final ∧
    List.Chain' (fun a b => betterLex b a = true) traj ∧
    (∀ x ∈ observed, betterLex x final = false) ∧
    betterLex initial final = false := by
  obtain ⟨h1, h2, h3, h4⟩ :=
    metaLoop_inv tlim gens (List.range maxIter) 0 initial initial [initial] []
      rfl rfl (List.chain'_singleton initial) (by simp) final traj observed h
  refine ⟨h1, h2, h3, h4, ?_⟩
  rcases trajectory_last_le_head traj initial final h3 h1 h2 with hfi | hfi
  · exact hfi ▸ betterLex_irrefl initial
  · exact betterLex_asymm hfi

/-- Witness for C8: one iteration with a single constant neighborhood whose
candidate improves on the initial solution. -/
theorem metaheuristic_monotone_best_witness :
    ([⟨3, 5, false, true⟩, ⟨2, 9, false, true⟩] : List SolObs).head? =
        some ⟨3, 5, false, true⟩ ∧
    ([⟨3, 5, false, true⟩, ⟨2, 9, false, true⟩] : List SolObs).getLast? =
        some ⟨2, 9, false, true⟩ ∧
    List.Chain' (fun a b => betterLex b a = true)
        [⟨3, 5, false, true⟩, ⟨2, 9, false, true⟩] ∧
    (∀ x ∈ ([⟨2, 9, false, true⟩] : List SolObs),
        betterLex x ⟨2, 9, false, true⟩ = false) ∧
    betterLex ⟨3, 5, false, true⟩ ⟨2, 9, false, true⟩ = false :=
  metaheuristic_monotone_best (fun _ => false)
    [fun _ => [⟨2, 9, false, true⟩]] 1 ⟨3, 5, false, true⟩
    ⟨2, 9, false, true⟩ [⟨3, 5, false, true⟩, ⟨2, 9, false, true⟩]
    [⟨2, 9, false, true⟩] (by rfl)

/-! ## The greedy heuristic claims -/

/-- Claim C2 (code bug): on the battery-tight instance the first
`Route.append` raises `BatteryCriticalException`, and `create_feasible_route`
then calls `self.handle_insufficient_energy(self._temp_route)` — two
positional arguments against the one parameter of
`def handle_insufficient_energy(self):` — so the whole construction dies
with `TypeError` instead of performing the station detour the claim
describes. -/
theorem create_feasible_route_battery_type_error :
    create_feasible_route cfgBattery cacheBattery 10
      ⟨[nC1], emptyRoute cfgBattery⟩ = .error .typeError ∧
    handleInsufficientEnergyArgCount ≠ handleInsufficientEnergyParamCount := by
  constructor
  · rfl
  · decide

/-- Claim C3 (code bug): on the time-tight instance the first
`Route.append` raises `MaximumTimeException`, and `create_feasible_route`
then calls `self.handle_max_time_exceeded(self._temp_route)` — two
positional arguments against the one parameter of
`def handle_max_time_exceeded(self):` — so the construction dies with
`TypeError` instead of closing the route at the depot. -/
theorem create_feasible_route_max_time_type_error :
    create_feasible_route cfgTime cacheTime 10
      ⟨[nC1], emptyRoute cfgTime⟩ = .error .typeError ∧
    handleMaxTimeExceededArgCount ≠ handleMaxTimeExceededParamCount := by
  constructor
  · rfl
  · decide

/-- Claim C4 (code bug): on the two-customer instance whose second leg
exceeds the time limit, the route must close early and a new route should
start for the remaining customer; instead `create_feasible_solution` dies
with the `TypeError` of the wrong-arity `handle_max_time_exceeded` call, so
no second route — let alone a structurally distinct one — is ever started
(`self._temp_route` is also never re-created between loop iterations:
`solution.Route(...)` is constructed only in `__init__`, heuristic.py
line 46). -/
theorem create_feasible_solution_second_route_type_error :
    create_feasible_solution cfgTime cacheTwoRoutes 10
      ⟨[nC1, nC2], emptyRoute cfgTime⟩ = .error .typeError := by
  rfl

/-- If no cache record matches, the `find_nearest` fold keeps its running
minimum, hence returns the accumulator it started from. -/
theorem findNearestGo_no_match (customers : List HNode) (typeToFind : String)
    (minTime : Option ℤ) (minNode : Option HNode) (l : List CacheRec)
    (h : ∀ cr ∈ l, ¬(cr.dst.ntype = typeToFind ∧
      (typeToFind = "customer" → cr.dst ∈ customers))) :
    findNearestGo customers typeToFind minTime minNode l = minNode := by
  induction l generalizing minTime minNode with
  | nil => rfl
  | cons cr rest ih =>
    have hcr := h cr (List.mem_cons_self _ _)
    have hrest := fun c hc => h c (List.mem_cons_of_mem _ hc)
    by_cases hty : typeToFind = "customer"
    · subst hty
      by_cases hn : cr.dst.ntype = "customer"
      · have hmem : cr.dst ∉ customers := fun hm => hcr ⟨hn, fun _ => hm⟩
        simp [findNearestGo, hn, hmem, ih _ _ hrest]
      · simp [findNearestGo, hn, ih _ _ hrest]
    · have hn : ¬(cr.dst.ntype = typeToFind) :=
        fun hh => hcr ⟨hh, fun hc => absurd hc hty⟩
      simp [findNearestGo, hty, hn, ih _ _ hrest]

/-- Claim C10: `find_nearest` returns `None` — without failing — whenever
no cached record starting at the current node has a destination of the
requested type (for `customer`, additionally one still unvisited); and when
no station is cached from the route's last node,
`handle_insufficient_energy` goes on to call `Route.append` with `None` as
the destination, whose outcome (a `None` destination matches no cache
record) is the propagated `NoPathFound`. -/
theorem find_nearest_none_no_match (cfg : Cfg) (cache : List CacheRec)
    (customers : List HNode) (currentNode : Option HNode) (typeToFind : String)
    (st : GreedyState) (fuel : Nat)
    (h1 : ∀ cr ∈ cache, some cr.src = currentNode →
      ¬(cr.dst.ntype = typeToFind ∧ (typeToFind = "customer" → cr.dst ∈ customers)))
    (h2 : ∀ cr ∈ cache, some cr.src = st.tempRoute.lastNode →
      cr.dst.ntype ≠ "station") :
    find_nearest cache customers currentNode typeToFind = none ∧
    handleInsufficientEnergyBody cfg cache (fuel + 1) st =
      .error (.routeFault .noPathFound) := by
  have key : ∀ (cs : List HNode) (ty : String) (cn : Option HNode),
      (∀ cr ∈ cache, some cr.src = cn →
        ¬(cr.dst.ntype = ty ∧ (ty = "customer" → cr.dst ∈ cs))) →
      find_nearest cache cs cn ty = none := by
    intro cs ty cn hno
    unfold find_nearest
    refine findNearestGo_no_match cs ty none none _ ?_
    intro cr hcr
    rw [List.mem_filter] at hcr
    exact hno cr hcr.1 (of_decide_eq_true hcr.2)
  refine ⟨key customers typeToFind currentNode h1, ?_⟩
  have hdest : find_nearest cache st.customers st.tempRoute.lastNode "station" = none := by
    refine key st.customers "station" st.tempRoute.lastNode ?_
    intro cr hcr hsrc hmatch
    exact h2 cr hcr hsrc hmatch.1
  simp [handleInsufficientEnergyBody, hdest, routeAppend]

/-- Witness for C10 at a concrete input: a cache with a single customer
record holds no station destination, and the only record starts at the
depot while the empty route's last node is `None`. -/
theorem find_nearest_none_no_match_witness :
    find_nearest cacheBattery [nC1] (some nD) "station" = none ∧
    handleInsufficientEnergyBody cfgBattery cacheBattery 1
      ⟨[nC1], emptyRoute cfgBattery⟩ = .error (.routeFault .noPathFound) := by
  refine find_nearest_none_no_match cfgBattery cacheBattery [nC1] (some nD)
    "station" ⟨[nC1], emptyRoute cfgBattery⟩ 0 ?_ ?_
  · decide
  · decide

/-! ## Frame and aliasing lemmas for the neighborhood generators -/

theorem genGood_init (sol : List (List HNode)) : GenGood sol (genInit sol) :=
  ⟨rfl, by simp [genInit]⟩

theorem genGood_yield {sol0 : List (List HNode)} {st : GenState}
    (h : GenGood sol0 st) : GenGood sol0 (genYield st) := by
  obtain ⟨h1, h2⟩ := h
  refine ⟨h1, ?_⟩
  intro y hy
  simp only [genYield, List.mem_append, List.mem_singleton] at hy
  rcases hy with hy | hy
  · exact h2 y hy
  · rw [hy]

theorem genGood_setModSol {sol0 : List (List HNode)} {st : GenState}
    (ms : List (List HNode)) (h : GenGood sol0 st) :
    GenGood sol0 { st with modSol := ms } := ⟨h.1, h.2⟩

theorem genGood_setFault {sol0 : List (List HNode)} {st : GenState}
    (h : GenGood sol0 st) : GenGood sol0 { st with fault := true } := ⟨h.1, h.2⟩

theorem genGood_twoOptJ (sol0 : List (List HNode)) (cfg : Cfg)
    (cache : List CacheRec) (rIdx : Nat) (nodeI : HNode) (js : List Nat) :
    ∀ st : GenState, GenGood sol0 st →
      GenGood sol0 (twoOptJ cfg cache rIdx nodeI js st) := by
  induction js with
  | nil => intro st h; exact h
  | cons j js ih =>
    intro st h
    rw [twoOptJ]
    split
    · exact h
    · split
      · exact genGood_setFault h
      · split
        · exact ih st h
        · exact ih _ (genGood_yield (genGood_setModSol _ h))

theorem genGood_twoOptI (sol0 : List (List HNode)) (cfg : Cfg)
    (cache : List CacheRec) (rIdx : Nat) (is1 : List Nat) :
    ∀ st : GenState, GenGood sol0 st →
      GenGood sol0 (twoOptI cfg cache rIdx is1 st) := by
  induction is1 with
  | nil => intro st h; exact h
  | cons i is2 ih =>
    intro st h
    rw [twoOptI]
    split
    · exact h
    · split
      · exact genGood_setFault h
      · exact ih _ (genGood_twoOptJ sol0 cfg cache rIdx _ _ st h)

theorem genGood_twoOptRoutes (sol0 : List (List HNode)) (cfg : Cfg)
    (cache : List CacheRec) (rs : List Nat) :
    ∀ st : GenState, GenGood sol0 st →
      GenGood sol0 (twoOptRoutes cfg cache rs st) := by
  induction rs with
  | nil => intro st h; exact h
  | cons rIdx rs ih =>
    intro st h
    rw [twoOptRoutes]
    split
    · exact h
    · exact ih _ (genGood_twoOptI sol0 cfg cache rIdx _ st h)

theorem genGood_moveJ (sol0 : List (List HNode)) (cfg : Cfg)
    (cache : List CacheRec) (rIdx : Nat) (nodeI : HNode) (js : List Nat) :
    ∀ st : GenState, GenGood sol0 st →
      GenGood sol0 (moveJ cfg cache rIdx nodeI js st) := by
  induction js with
  | nil => intro st h; exact h
  | cons j js ih =>
    intro st h
    rw [moveJ]
    split
    · exact h
    · split
      · exact ih st h
      · split
        · exact ih _ (genGood_setModSol _ h)
        · exact ih _ (genGood_yield (genGood_setModSol _ h))

theorem genGood_moveI (sol0 : List (List HNode)) (cfg : Cfg)
    (cache : List CacheRec) (rIdx : Nat) (is1 : List Nat) :
    ∀ st : GenState, GenGood sol0 st →
      GenGood sol0 (moveI cfg cache rIdx is1 st) := by
  induction is1 with
  | nil => intro st h; exact h
  | cons i is2 ih =>
    intro st h
    rw [moveI]
    split
    · exact h
    · split
      · exact genGood_setFault h
      · exact ih _ (genGood_moveJ sol0 cfg cache rIdx _ _ st h)

theorem genGood_moveRoutes (sol0 : List (List HNode)) (cfg : Cfg)
    (cache : List CacheRec) (rs : List Nat) :
    ∀ st : GenState, GenGood sol0 st →
      GenGood sol0 (moveRoutes cfg cache rs st) := by
  induction rs with
  | nil => intro st h; exact h
  | cons rIdx rs ih =>
    intro st h
    rw [moveRoutes]
    split
    · exact h
    · exact ih _ (genGood_moveI sol0 cfg cache rIdx _ st h)

theorem genGood_swapTry (sol0 : List (List HNode)) (cfg : Cfg)
    (cache : List CacheRec) (a b i j : Nat) (nodeI nodeJ : HNode)
    (st : GenState) (h : GenGood sol0 st) :
    GenGood sol0 (swapTry cfg cache a b i j nodeI nodeJ st) := by
  rw [swapTry]
  split
  · exact h
  · split
    · exact genGood_setModSol _ h
    · split
      · exact genGood_setModSol _ h
      · split
        · exact genGood_setModSol _ h
        · exact genGood_yield (genGood_setModSol _ h)

theorem genGood_swapJ (sol0 : List (List HNode)) (cfg : Cfg)
    (cache : List CacheRec) (a b i : Nat) (nodeI : HNode) (js : List Nat) :
    ∀ st : GenState, GenGood sol0 st →
      GenGood sol0 (swapJ cfg cache a b i nodeI js st) := by
  induction js with
  | nil => intro st h; exact h
  | cons j js ih =>
    intro st h
    rw [swapJ]
    split
    · exact h
    · split
      · exact genGood_setFault h
      · exact ih _ (genGood_swapTry sol0 cfg cache a b i j nodeI _ st h)

theorem genGood_swapI (sol0 : List (List HNode)) (cfg : Cfg)
    (cache : List CacheRec) (a b : Nat) (is1 : List Nat) :
    ∀ st : GenState, GenGood sol0 st →
      GenGood sol0 (swapI cfg cache a b is1 st) := by
  induction is1 with
  | nil => intro st h; exact h
  | cons i is2 ih =>
    intro st h
    rw [swapI]
    split
    · exact h
    · split
      · exact genGood_setFault h
      · exact ih _ (genGood_swapJ sol0 cfg cache a b i _ _ st h)

theorem genGood_swapB (sol0 : List (List HNode)) (cfg : Cfg)
    (cache : List CacheRec) (a : Nat) (bs : List Nat) :
    ∀ st : GenState, GenGood sol0 st →
      GenGood sol0 (swapB cfg cache a bs st) := by
  induction bs with
  | nil => intro st h; exact h
  | cons b bs ih =>
    intro st h
    rw [swapB]
    split
    · exact h
    · exact ih _ (genGood_swapI sol0 cfg cache a b _ st h)

theorem genGood_swapA (sol0 : List (List HNode)) (cfg : Cfg)
    (cache : List CacheRec) (as1 : List Nat) :
    ∀ st : GenState, GenGood sol0 st →
      GenGood sol0 (swapA cfg cache as1 st) := by
  induction as1 with
  | nil => intro st h; exact h
  | cons a as2 ih =>
    intro st h
    rw [swapA]
    split
    · exact h
    · exact ih _ (genGood_swapB sol0 cfg cache a _ st h)

theorem genGood_refSwap (sol0 : List (List HNode)) (cfg : Cfg)
    (cache : List CacheRec) (st : GenState) (ref : RouteRef) (x y : HNode)
    (h : GenGood sol0 st) : GenGood sol0 (refSwap cfg cache st ref x y).1 := by
  cases ref with
  | inSol idx =>
    rw [refSwap]
    split
    · exact h
    · exact genGood_setModSol _ h
  | detached r =>
    rw [refSwap]
    split
    · exact h
    · exact h

theorem genGood_threeOptTryOne (sol0 : List (List HNode)) (cfg : Cfg)
    (cache : List CacheRec) (nI nJ nK : HNode) (st : GenState) (ref : RouteRef)
    (h : GenGood sol0 st) :
    GenGood sol0 (threeOptTryOne cfg cache nI nJ nK st ref).1 := by
  rw [threeOptTryOne]
  split
  next st1 ref1 heq =>
    have g1 := genGood_refSwap sol0 cfg cache st ref nI nJ h
    rw [heq] at g1
    exact g1
  next st1 ref1 heq =>
    have g1 := genGood_refSwap sol0 cfg cache st ref nI nJ h
    rw [heq] at g1
    split
    next st2 ref2 heq2 =>
      have g2 := genGood_refSwap sol0 cfg cache st1 ref1 nI nK g1
      rw [heq2] at g2
      exact g2
    next st2 ref2 heq2 =>
      have g2 := genGood_refSwap sol0 cfg cache st1 ref1 nI nK g1
      rw [heq2] at g2
      exact genGood_yield g2

theorem genGood_threeOptTryTwo (sol0 : List (List HNode)) (cfg : Cfg)
    (cache : List CacheRec) (nI nJ nK : HNode) (st : GenState) (ref : RouteRef)
    (h : GenGood sol0 st) :
    GenGood sol0 (threeOptTryTwo cfg cache nI nJ nK st ref).1 := by
  rw [threeOptTryTwo]
  split
  next st1 ref1 heq =>
    have g1 := genGood_refSwap sol0 cfg cache st ref nI nK h
    rw [heq] at g1
    exact g1
  next st1 ref1 heq =>
    have g1 := genGood_refSwap sol0 cfg cache st ref nI nK h
    rw [heq] at g1
    split
    next st2 ref2 heq2 =>
      have g2 := genGood_refSwap sol0 cfg cache st1 ref1 nJ nI g1
      rw [heq2] at g2
      exact g2
    next st2 ref2 heq2 =>
      have g2 := genGood_refSwap sol0 cfg cache st1 ref1 nJ nI g1
      rw [heq2] at g2
      exact genGood_yield g2

theorem genGood_threeOptKBody (sol0 : List (List HNode)) (cfg : Cfg)
    (cache : List CacheRec) (nI nJ nK : HNode) (st : GenState) (ref : RouteRef)
    (h : GenGood sol0 st) :
    GenGood sol0 (threeOptKBody cfg cache nI nJ nK st ref).1 := by
  rw [threeOptKBody]
  exact genGood_threeOptTryTwo sol0 cfg cache nI nJ nK _ _
    (genGood_threeOptTryOne sol0 cfg cache nI nJ nK st ref h)

theorem genGood_threeOptK (sol0 : List (List HNode)) (cfg : Cfg)
    (cache : List CacheRec) (nI nJ : HNode) (ks : List Nat) :
    ∀ st ref, GenGood sol0 st →
      GenGood sol0 (threeOptK cfg cache nI nJ ks (st, ref)).1 := by
  induction ks with
  | nil => intro st ref h; exact h
  | cons k ks ih =>
    intro st ref h
    rw [threeOptK]
    split
    · exact h
    · split
      · exact genGood_setFault h
      next nK hg =>
        rcases hb : threeOptKBody cfg cache nI nJ nK st ref with ⟨st2, ref2⟩
        have g2 := genGood_threeOptKBody sol0 cfg cache nI nJ nK st ref h
        rw [hb] at g2
        exact ih st2 ref2 g2

theorem genGood_threeOptJ (sol0 : List (List HNode)) (cfg : Cfg)
    (cache : List CacheRec) (nI : HNode) (js : List Nat) :
    ∀ st ref, GenGood sol0 st →
      GenGood sol0 (threeOptJ cfg cache nI js (st, ref)).1 := by
  induction js with
  | nil => intro st ref h; exact h
  | cons j js ih =>
    intro st ref h
    rw [threeOptJ]
    split
    · exact h
    · split
      · exact genGood_setFault h
      next nJ hg =>
        rcases hk : threeOptK cfg cache nI nJ
            (pyRange (j + 1) (refGet st ref).length) (st, ref) with ⟨st2, ref2⟩
        have g2 := genGood_threeOptK sol0 cfg cache nI nJ
          (pyRange (j + 1) (refGet st ref).length) st ref h
        rw [hk] at g2
        exact ih st2 ref2 g2

theorem genGood_threeOptI (sol0 : List (List HNode)) (cfg : Cfg)
    (cache : List CacheRec) (is1 : List Nat) :
    ∀ st ref, GenGood sol0 st →
      GenGood sol0 (threeOptI cfg cache is1 (st, ref)).1 := by
  induction is1 with
  | nil => intro st ref h; exact h
  | cons i is2 ih =>
    intro st ref h
    rw [threeOptI]
    split
    · exact h
    · split
      · exact genGood_setFault h
      next nI hg =>
        rcases hj : threeOptJ cfg cache nI
            (pyRange (i + 1) ((refGet st ref).length - 1)) (st, ref) with ⟨st2, ref2⟩
        have g2 := genGood_threeOptJ sol0 cfg cache nI
          (pyRange (i + 1) ((refGet st ref).length - 1)) st ref h
        rw [hj] at g2
        exact ih st2 ref2 g2

theorem genGood_threeOptRoutes (sol0 : List (List HNode)) (cfg : Cfg)
    (cache : List CacheRec) (rs : List Nat) :
    ∀ st : GenState, GenGood sol0 st →
      GenGood sol0 (threeOptRoutes cfg cache rs st) := by
  induction rs with
  | nil => intro st h; exact h
  | cons rIdx rs ih =>
    intro st h
    rw [threeOptRoutes]
    split
    · exact h
    · exact ih _ (genGood_threeOptI sol0 cfg cache _ st (RouteRef.inSol rIdx) h)

/-- Claim C5 (amended): every neighborhood generator — 2-opt, 3-opt, move,
swap — leaves its input Solution unchanged; however the yielded candidates
are not independent values: every yield returns one and the same object,
the single deep copy of the input made at generator start, which the
generator goes on mutating after each yield. -/
theorem generators_frame_and_alias (cfg : Cfg) (cache : List CacheRec)
    (sol : List (List HNode)) :
    ((two_opt_neighbors cfg cache sol).inputSol = sol ∧
      ((two_opt_neighbors cfg cache sol).yields.map Prod.fst).all
        (fun t => t == GenObj.modSolCopy) = true) ∧
    ((three_opt_neighbors cfg cache sol).inputSol = sol ∧
      ((three_opt_neighbors cfg cache sol).yields.map Prod.fst).all
        (fun t => t == GenObj.modSolCopy) = true) ∧
    ((move_neighbors cfg cache sol).inputSol = sol ∧
      ((move_neighbors cfg cache sol).yields.map Prod.fst).all
        (fun t => t == GenObj.modSolCopy) = true) ∧
    ((swap_neighbors cfg cache sol).inputSol = sol ∧
      ((swap_neighbors cfg cache sol).yields.map Prod.fst).all
        (fun t => t == GenObj.modSolCopy) = true) := by
  have conv : ∀ st : GenState, GenGood sol st →
      st.inputSol = sol ∧
      (st.yields.map Prod.fst).all (fun t => t == GenObj.modSolCopy) = true := by
    intro st h
    refine ⟨h.1, ?_⟩
    rw [List.all_eq_true]
    intro t ht
    rw [List.mem_map] at ht
    obtain ⟨y, hy, rfl⟩ := ht
    rw [h.2 y hy]
    rfl
  refine ⟨conv _ ?_, conv _ ?_, conv _ ?_, conv _ ?_⟩
  · exact genGood_twoOptRoutes sol cfg cache _ _ (genGood_init sol)
  · exact genGood_threeOptRoutes sol cfg cache _ _ (genGood_init sol)
  · exact genGood_moveRoutes sol cfg cache _ _ (genGood_init sol)
  · exact genGood_swapA sol cfg cache _ _ (genGood_init sol)

/-- Claim C5 counterexample: on the one-route Solution [[C1, C2, C3]] the
2-opt generator yields three candidates; every yield returns the same
`mod_sol` object, and the value of that object at the second yield differs
from its value at the first — so the first yielded candidate shares mutable
state with the second and is mutated by the generator after being yielded,
against the claim. -/
theorem two_opt_yields_alias :
    ((two_opt_neighbors cfgGen cacheGen [[nC1, nC2, nC3]]).yields.map Prod.fst =
      [GenObj.modSolCopy, GenObj.modSolCopy, GenObj.modSolCopy]) ∧
    ((two_opt_neighbors cfgGen cacheGen [[nC1, nC2, nC3]]).yields.map Prod.snd).get? 0 ≠
      ((two_opt_neighbors cfgGen cacheGen [[nC1, nC2, nC3]]).yields.map Prod.snd).get? 1 := by
  decide

/-- Claim C6 (code bug): swapping node 0 of route A = [C1] with node 0 of
route B = [C2], `swap_neighbors` yields a candidate whose route A holds
BOTH nodes and whose route B is empty: after removing the two nodes it runs
`route_a.insert(node_j, i); route_a.insert(node_i, j)` (heuristic.py lines
261-262) — both inserts into route A, none into route B — instead of the
exchange [[C2], [C1]] the claim describes. -/
theorem swap_neighbors_moves_both_into_route_a :
    ((swap_neighbors cfgGen cacheGen [[nC1], [nC2]]).yields.map Prod.snd =
      [[[nC1, nC2], []]]) ∧
    ([[nC1, nC2], []] : List (List HNode)) ≠ [[nC2], [nC1]] := by
  decide

/-! ## The path cache claims -/

/-- Claim C1 (code bug): on `gLen` the cache built by `CachePaths.__init__`
stores, as the "shortest" path from A to B, the direct road of length 10:
Dijkstra ran with the misspelt weight key 'lenght', which matches no edge
attribute, so every edge weighed the default 1 and the fewest-hop path won
— although the graph offers the path A→C→B of cumulative length 2. -/
theorem cache_shortest_not_min_length :
    cacheShortestLookup (cachePathsInit gLen) cA cB =
      .found [(cA, "depot"), (cB, "customer")] ∧
    sumOverLabelGo gLen "length" [(cA, "depot"), (cB, "customer")] = some 10 ∧
    edgeData gLen cA cC ≠ none ∧ edgeData gLen cC cB ≠ none ∧
    sumOverLabelGo gLen "length"
      [(cA, "depot"), (cC, "customer"), (cB, "customer")] = some 2 ∧
    (mkAttr 10 10 10).getAttr "lenght" = none ∧
    nxEdgeWeight (mkAttr 10 10 10) "lenght" = 1 ∧
    (2 : ℤ) < 10 := by
  decide

/-- Claim C9 (code bug): a lookup that hits a cached record returns its
greenest/shortest Path; a miss, however, does not raise the intended
NoPathFound — the source spells the class `nx.exception.NetworkxNoPath`
while the module defines `NetworkXNoPath`, so the raise statement itself
dies with `AttributeError`. -/
theorem cache_lookup_miss_attribute_error :
    cacheGreenestLookup (cachePathsInit gLen) cA cB =
      .found [(cA, "depot"), (cC, "customer"), (cB, "customer")] ∧
    cacheShortestLookup (cachePathsInit gLen) cA cB =
      .found [(cA, "depot"), (cB, "customer")] ∧
    cacheGreenestLookup (cachePathsInit gLen) cB cA = .attributeError ∧
    cacheShortestLookup (cachePathsInit gLen) cB cA = .attributeError ∧
    raiseFromNxException "NetworkXNoPath" = .raisedError "NetworkXNoPath" ∧
    LookupOutcome.attributeError ≠ .raisedError "NetworkXNoPath" := by
  decide

end EVRP
